import Mathlib

/-!
Verification of the agent-definition-format workflow core.

This file is a shallow embedding, in Lean 4, of the workflow execution
engine (`workflow-executor`), the elicitation service
(`elicitation.service`) and the fallback elicitation bridge
(`elicitation-workaround`) of the repository.  JavaScript run-time
values are modelled by `JSVal`, JavaScript numbers by `JSNum`
(rationals plus `NaN` and the two infinities; binary-float rounding is
not modelled, and no theorem below depends on it), and JavaScript
objects used as dictionaries by insertion-ordered association lists.
Effect-typed functions are modelled as pure functions over explicit
state, with external collaborators (elicitation, sampling, tool
handlers, the host regular-expression engine, the clock) supplied as
oracle parameters.  Recursive state execution is fuel-indexed; `none`
means the fuel was exhausted.
-/

namespace ADF

/-- Negation of a rational, by renormalizing the negated numerator. -/
def ratNeg (q : ℚ) : ℚ := mkRat (-q.num) q.den

/-- One less than a rational, by renormalizing. -/
def ratSubOne (q : ℚ) : ℚ := mkRat (q.num - q.den) q.den

/-- Strict order on rationals by cross-multiplication (denominators
are positive). -/
def ratLtb (a b : ℚ) : Bool := a.num * (b.den : ℤ) < b.num * (a.den : ℤ)

/-- Equality of rationals by their normal forms. -/
def ratEqb (a b : ℚ) : Bool := a.num == b.num && a.den == b.den

/-- JavaScript numbers, as far as the embedded code observes them:
`NaN`, the two infinities, and finite values (modelled as rationals;
IEEE-754 rounding of decimal literals is not modelled and no theorem
relies on a value that would round). -/
inductive JSNum where
  | nan
  | posInf
  | negInf
  | fin (q : ℚ)
deriving DecidableEq, Repr

/-- `Number.isFinite` on a `JSNum`. -/
def JSNum.isFinite : JSNum → Bool
  | .fin _ => true
  | _ => false

/-- Whether the number is `NaN`. -/
def JSNum.isNan : JSNum → Bool
  | .nan => true
  | _ => false

/-- JavaScript `<` on numbers: any comparison involving `NaN` is false. -/
def JSNum.ltb : JSNum → JSNum → Bool
  | .fin a, .fin b => ratLtb a b
  | .fin _, .posInf => true
  | .negInf, .fin _ => true
  | .negInf, .posInf => true
  | _, _ => false

/-- JavaScript `>` on numbers. -/
def JSNum.gtb (a b : JSNum) : Bool := JSNum.ltb b a

/-- JavaScript `>=` on numbers: false when either side is `NaN`. -/
def JSNum.geb (a b : JSNum) : Bool := !a.isNan && !b.isNan && !(JSNum.ltb a b)

/-- JavaScript `<=` on numbers: false when either side is `NaN`. -/
def JSNum.leb (a b : JSNum) : Bool := !a.isNan && !b.isNan && !(JSNum.ltb b a)

/-- JavaScript `==` on numbers: `NaN` equals nothing, infinities equal
themselves. -/
def JSNum.eqb : JSNum → JSNum → Bool
  | .fin a, .fin b => ratEqb a b
  | .posInf, .posInf => true
  | .negInf, .negInf => true
  | _, _ => false

/-- Subtraction of one (used by the 1-based select-index arithmetic
`Number(response) - 1`). -/
def JSNum.subOne : JSNum → JSNum
  | .nan => .nan
  | .posInf => .posInf
  | .negInf => .negInf
  | .fin q => .fin (ratSubOne q)

/-- The common members of the JavaScript whitespace class `\s` (the
exotic Unicode space ranges, which never appear in this code base's
inputs, are omitted). -/
def isJsWhitespace (c : Char) : Bool :=
  c = ' ' || c = '\t' || c = '\n' || c = '\r' || c = '\x0b' || c = '\x0c' ||
  c = '\u00A0' || c = '\u2028' || c = '\u2029'

/-- JavaScript line terminators (which the regexp `.` does not match). -/
def isLineTerminator (c : Char) : Bool :=
  c = '\n' || c = '\r' || c = '\u2028' || c = '\u2029'

/-- Characterwise prefix test (`charsPrefix needle hay`). -/
def charsPrefix : List Char → List Char → Bool
  | [], _ => true
  | _ :: _, [] => false
  | a :: as, b :: bs => a = b && charsPrefix as bs

/-- `String.prototype.startsWith`. -/
def strStartsWith (s p : String) : Bool := charsPrefix p.data s.data

/-- `String.prototype.endsWith`. -/
def strEndsWith (s p : String) : Bool := charsPrefix p.data.reverse s.data.reverse

/-- Whether the string contains the character. -/
def strContainsChar (s : String) (c : Char) : Bool := s.data.contains c

/-- `toLowerCase` on one character, ASCII range (the only characters
this code base compares after lowering). -/
def charToLower (c : Char) : Char :=
  if 'A' ≤ c && c ≤ 'Z' then Char.ofNat (c.toNat + 32) else c

/-- `String.prototype.toLowerCase`. -/
def strToLower (s : String) : String := ⟨s.data.map charToLower⟩

/-- Left-to-right, non-overlapping global literal replacement — the
effect of `value.replace(new RegExp(needle, 'g'), repl)` for the
metacharacter-free needles this code base builds (`fuel` starts at the
haystack length, which bounds the recursion). -/
def replaceAllAux (needle repl : List Char) : ℕ → List Char → List Char
  | _, [] => []
  | 0, s => s
  | fuel + 1, c :: cs =>
    if charsPrefix needle (c :: cs) then
      repl ++ replaceAllAux needle repl fuel ((c :: cs).drop needle.length)
    else c :: replaceAllAux needle repl fuel cs

/-- Global literal replacement on strings (an empty needle, which this
code base never builds, replaces nothing). -/
def replaceAll (s needle repl : String) : String :=
  if needle = "" then s
  else ⟨replaceAllAux needle.data repl.data s.data.length s.data⟩

/-- Numeric value of a digit string. -/
def digitsToNat (ds : List Char) : ℕ :=
  ds.foldl (fun a c => 10 * a + (c.toNat - 48)) 0

/-- Decimal part of JavaScript's string-to-number grammar:
`digits [. digits] [e|E [sign] digits]`, requiring at least one digit
in the mantissa and consuming the whole input.  (The hexadecimal,
octal and binary literal forms are omitted: they never appear in this
code base's inputs and no theorem relies on them.) -/
def parseDecimal (cs : List Char) : Option ℚ :=
  let ip := cs.takeWhile (·.isDigit)
  let rest := cs.dropWhile (·.isDigit)
  let hasDot : Bool := rest.head? = some '.'
  let afterDot := if hasDot then rest.tail else rest
  let fp := if hasDot then afterDot.takeWhile (·.isDigit) else []
  let rest2 := if hasDot then afterDot.dropWhile (·.isDigit) else rest
  if ip.isEmpty && fp.isEmpty then none
  else
    let mant : ℕ := digitsToNat (ip ++ fp)
    let fromExp : ℤ → Option ℚ := fun e =>
      let shift : ℤ := e - (fp.length : ℤ)
      some (if 0 ≤ shift then mkRat ((mant * 10 ^ shift.toNat : ℕ) : ℤ) 1
            else mkRat (mant : ℤ) (10 ^ (-shift).toNat))
    match rest2 with
    | [] => fromExp 0
    | e :: r =>
      if e = 'e' || e = 'E' then
        let sgn : ℤ := match r with
          | '-' :: _ => -1
          | _ => 1
        let r2 := match r with
          | '+' :: t => t
          | '-' :: t => t
          | t => t
        let ds := r2.takeWhile (·.isDigit)
        if ds.isEmpty || !(r2.dropWhile (·.isDigit)).isEmpty then none
        else fromExp (sgn * (digitsToNat ds : ℤ))
      else none

/-- JavaScript `Number()` applied to a string: trim whitespace, empty
means `0`, optional sign, `Infinity` or a decimal literal, anything
else is `NaN`. -/
def jsStringToNumber (s : String) : JSNum :=
  let cs := ((s.data.dropWhile isJsWhitespace).reverse.dropWhile isJsWhitespace).reverse
  match cs with
  | [] => .fin 0
  | _ =>
    let neg : Bool := cs.head? = some '-'
    let body := match cs with
      | '-' :: t => t
      | '+' :: t => t
      | t => t
    if body = "Infinity".data then (if neg then .negInf else .posInf)
    else
      match parseDecimal body with
      | some q => .fin (if neg then ratNeg q else q)
      | none => .nan

/-- JavaScript run-time values, as far as the embedded code observes
them. -/
inductive JSVal where
  | undef
  | null
  | bool (b : Bool)
  | num (n : JSNum)
  | str (s : String)
  | list (xs : List JSVal)

/-- Decimal digits of a natural number, most significant first
(`fuel` starts above the digit count). -/
def natToDigits : ℕ → ℕ → List Char → List Char
  | 0, _, acc => acc
  | fuel + 1, n, acc =>
    let d := Char.ofNat (48 + n % 10)
    if n < 10 then d :: acc else natToDigits fuel (n / 10) (d :: acc)

/-- Decimal rendering of a natural number. -/
def natToString (n : ℕ) : String := ⟨natToDigits (n + 1) n []⟩

/-- Decimal rendering of an integer. -/
def intToString : ℤ → String
  | .ofNat n => natToString n
  | .negSucc n => "-" ++ natToString (n + 1)

/-- Rendering of a finite number.  Integral values print exactly as in
JavaScript; non-integral values (which no theorem below stringifies)
print in an unambiguous placeholder form. -/
def ratToString (q : ℚ) : String :=
  if q.den = 1 then intToString q.num
  else intToString q.num ++ "/" ++ natToString q.den

/-- `String()` on a number. -/
def JSNum.render : JSNum → String
  | .nan => "NaN"
  | .posInf => "Infinity"
  | .negInf => "-Infinity"
  | .fin q => ratToString q

mutual

/-- JavaScript `String()` coercion. -/
def jsToString : JSVal → String
  | .undef => "undefined"
  | .null => "null"
  | .bool true => "true"
  | .bool false => "false"
  | .num n => n.render
  | .str s => s
  | .list xs => String.intercalate "," (jsListStrings xs)

/-- Array elements joined by `,`; `null`/`undefined` elements render
empty, as in `Array.prototype.toString`. -/
def jsListStrings : List JSVal → List String
  | [] => []
  | .undef :: vs => "" :: jsListStrings vs
  | .null :: vs => "" :: jsListStrings vs
  | v :: vs => jsToString v :: jsListStrings vs

end

/-- JavaScript truthiness. -/
def toBoolean : JSVal → Bool
  | .undef => false
  | .null => false
  | .bool b => b
  | .num .nan => false
  | .num (.fin q) => q.num != 0
  | .num _ => true
  | .str s => s != ""
  | .list _ => true

/-- JavaScript `ToNumber`. -/
def jsToNumber : JSVal → JSNum
  | .undef => .nan
  | .null => .fin 0
  | .bool true => .fin 1
  | .bool false => .fin 0
  | .num n => n
  | .str s => jsStringToNumber s
  | .list xs => jsStringToNumber (jsToString (.list xs))

/-- A JavaScript object used as a dictionary: an association list in
property insertion order (the order `Object.entries` iterates). -/
abbrev VarMap := List (String × JSVal)

/-- Property read (`undefined` absence is `none`). -/
def lookupVar (m : VarMap) (k : String) : Option JSVal :=
  match m with
  | [] => none
  | (k', v) :: rest => if k' = k then some v else lookupVar rest k

/-- Property write: an existing key keeps its position, a new key is
appended, as in JavaScript objects. -/
def setVar (m : VarMap) (k : String) (v : JSVal) : VarMap :=
  match m with
  | [] => [(k, v)]
  | (k', v') :: rest => if k' = k then (k', v) :: rest else (k', v') :: setVar rest k v

/-- A property read that treats a stored `undefined` like an absent
key (the `!== undefined` tests in the source cannot tell them apart). -/
def lookupDefined (m : VarMap) (k : String) : Option JSVal :=
  match lookupVar m k with
  | some .undef => none
  | o => o

/-! ## Pattern matching (`matchesPattern` of the workflow executor)

The wildcard branch of the source escapes every regexp metacharacter
except `*` and turns each `*` into `.*`, anchored at both ends, so it
is exactly a glob in which `*` stands for any run of non-line-terminator
characters (`.` does not match line terminators). -/

/-- Anchored glob matching, fuel-indexed (each recursive call shrinks
the combined length of pattern and string, so fuel starting there is
never exhausted). -/
def globMatchAux : ℕ → List Char → List Char → Bool
  | _, [], [] => true
  | _, [], _ :: _ => false
  | fuel + 1, '*' :: ps, s =>
    globMatchAux fuel ps s ||
      (match s with
       | [] => false
       | c :: cs => !isLineTerminator c && globMatchAux fuel ('*' :: ps) cs)
  | fuel + 1, p :: ps, c :: cs => p = c && globMatchAux fuel ps cs
  | _ + 1, _ :: _, [] => false
  | 0, _, _ => false

/-- Anchored glob matching of a pattern (first argument) against a
string, `*` matching any run of characters that contains no line
terminator. -/
def globMatch (p s : List Char) : Bool := globMatchAux (p.length + s.length) p s

/-- `matchesPattern(value, pattern)` of the workflow executor.  A
pattern of the form `/…/` is a host regular-expression test (the host
engine is the oracle `regexTest`); a pattern containing `*` is a
wildcard anchored at both ends; anything else is an exact match
against the stringified value. -/
def matchesPattern (regexTest : String → String → Bool) (value : JSVal) (p : String) : Bool :=
  if strStartsWith p "/" && strEndsWith p "/" then
    regexTest ((p.drop 1).dropRight 1) (jsToString value)
  else if strContainsChar p '*' then
    globMatch p.data (jsToString value).data
  else jsToString value == p

/-! ## Condition evaluation (`evaluateCondition` of the workflow executor)

The source first checks whether the condition names a defined
variable; otherwise it matches the condition against the regexp
`(\w+)\s*(==|!=|>|<|>=|<=)\s*(.+)` anchored at both ends.  Because the
alternation tries `>` before `>=` and `<` before `<=` (and `.+` then
accepts the leftover `=`), the `>=`/`<=` branches of the operator
switch are unreachable; the parser below reproduces that ordered
alternation.  `.+` cannot match line terminators, so a condition whose
value part contains one never matches. -/

/-- The six comparison operators of the condition mini-language. -/
inductive CmpOp where
  | eq
  | ne
  | gt
  | lt
  | ge
  | le
deriving DecidableEq, Repr

/-- A `\w` character: ASCII letter, digit or underscore. -/
def isWordChar (c : Char) : Bool :=
  ('a' ≤ c && c ≤ 'z') || ('A' ≤ c && c ≤ 'Z') || c.isDigit || c = '_'

/-- Ordered alternation `==|!=|>|<|>=|<=`: `>` and `<` shadow `>=` and
`<=`. -/
def parseOp : List Char → Option (CmpOp × List Char)
  | '=' :: '=' :: r => some (.eq, r)
  | '!' :: '=' :: r => some (.ne, r)
  | '>' :: r => some (.gt, r)
  | '<' :: r => some (.lt, r)
  | _ => none

/-- The comparison form of the condition mini-language: word, optional
whitespace, operator, optional whitespace, nonempty remainder free of
line terminators. -/
def parseComparison (s : String) : Option (String × CmpOp × String) :=
  let cs := s.data
  let w := cs.takeWhile isWordChar
  let rest := cs.dropWhile isWordChar
  if w.isEmpty then none
  else
    match parseOp (rest.dropWhile isJsWhitespace) with
    | none => none
    | some (op, r) =>
      let v := r.dropWhile isJsWhitespace
      if v.isEmpty || v.any isLineTerminator then none
      else some (⟨w⟩, op, ⟨v⟩)

/-- The right-hand side the source builds: a quoted literal keeps its
inner text, otherwise the text is coerced to a number when that does
not give `NaN`, else kept as a string. -/
inductive CmpVal where
  | str (s : String)
  | num (n : JSNum)
deriving Repr

/-- `compareValue` construction from the source. -/
def mkCompareValue (value : String) : CmpVal :=
  if strStartsWith value "\"" && strEndsWith value "\"" then .str ((value.drop 1).dropRight 1)
  else
    match jsStringToNumber value with
    | .nan => .str value
    | n => .num n

/-- JavaScript loose equality between the looked-up variable value
(`none` = `undefined`) and the comparison literal. -/
def looseEqCmp (v : Option JSVal) (cv : CmpVal) : Bool :=
  match v, cv with
  | none, _ => false
  | some .undef, _ => false
  | some .null, _ => false
  | some (.bool b), .num n => JSNum.eqb (.fin (if b then 1 else 0)) n
  | some (.bool b), .str t => JSNum.eqb (.fin (if b then 1 else 0)) (jsStringToNumber t)
  | some (.num a), .num n => JSNum.eqb a n
  | some (.num a), .str t => JSNum.eqb a (jsStringToNumber t)
  | some (.str s), .num n => JSNum.eqb (jsStringToNumber s) n
  | some (.str s), .str t => s == t
  | some (.list xs), .num n => JSNum.eqb (jsStringToNumber (jsToString (.list xs))) n
  | some (.list xs), .str t => jsToString (.list xs) == t

/-- Numeric view used by the relational operators when the comparison
is not string-to-string. -/
def cmpValToNumber : CmpVal → JSNum
  | .str t => jsStringToNumber t
  | .num n => n

/-- JavaScript `<`: string-to-string comparisons are lexicographic by
code unit, everything else is numeric (`NaN` making the comparison
false). -/
def looseLtCmp (v : Option JSVal) (cv : CmpVal) : Bool :=
  match v, cv with
  | some (.str s), .str t => decide (s < t)
  | some (.list xs), .str t => decide (jsToString (.list xs) < t)
  | w, c =>
    JSNum.ltb (match w with | none => .nan | some x => jsToNumber x) (cmpValToNumber c)

/-- JavaScript `>`. -/
def looseGtCmp (v : Option JSVal) (cv : CmpVal) : Bool :=
  match v, cv with
  | some (.str s), .str t => decide (t < s)
  | some (.list xs), .str t => decide (t < jsToString (.list xs))
  | w, c =>
    JSNum.gtb (match w with | none => .nan | some x => jsToNumber x) (cmpValToNumber c)

/-- JavaScript `>=` (unreachable through the condition parser, kept
for fidelity with the source's switch). -/
def looseGeCmp (v : Option JSVal) (cv : CmpVal) : Bool :=
  match v, cv with
  | some (.str s), .str t => decide (¬ s < t)
  | some (.list xs), .str t => decide (¬ jsToString (.list xs) < t)
  | w, c =>
    JSNum.geb (match w with | none => .nan | some x => jsToNumber x) (cmpValToNumber c)

/-- JavaScript `<=` (unreachable through the condition parser, kept
for fidelity with the source's switch). -/
def looseLeCmp (v : Option JSVal) (cv : CmpVal) : Bool :=
  match v, cv with
  | some (.str s), .str t => decide (¬ t < s)
  | some (.list xs), .str t => decide (¬ t < jsToString (.list xs))
  | w, c =>
    JSNum.leb (match w with | none => .nan | some x => jsToNumber x) (cmpValToNumber c)

/-- `evaluateCondition(condition, variables)` of the workflow
executor: truthiness of a defined variable of that exact name,
otherwise the comparison mini-language, otherwise `false`. -/
def evaluateCondition (condition : String) (vars : VarMap) : Bool :=
  match lookupDefined vars condition with
  | some v => toBoolean v
  | none =>
    match parseComparison condition with
    | none => false
    | some (varName, op, value) =>
      let varValue := lookupDefined vars varName
      let cv := mkCompareValue value
      match op with
      | .eq => looseEqCmp varValue cv
      | .ne => !looseEqCmp varValue cv
      | .gt => looseGtCmp varValue cv
      | .lt => looseLtCmp varValue cv
      | .ge => looseGeCmp varValue cv
      | .le => looseLeCmp varValue cv

/-! ## The ADF schema (`adf-schema.ts`), restricted to the fields the
embedded code reads -/

/-- The four elicitation kinds. -/
inductive ElicitationType where
  | confirm
  | select
  | text
  | number
deriving DecidableEq, Repr

/-- An elicitation specification. -/
structure Elicitation where
  type : ElicitationType
  prompt : String
  options : Option (List String) := none
  min : Option ℚ := none
  max : Option ℚ := none
  pattern : Option String := none
  required : Option Bool := none

/-- A sampling specification. -/
structure Sampling where
  prompt : String
  model : Option String := none
  temperature : Option ℚ := none
  max_tokens : Option ℚ := none
  top_p : Option ℚ := none
  system : Option String := none
  context : Option (List String) := none

/-- The seven state kinds. -/
inductive StateType where
  | response
  | elicitation
  | sampling
  | tool
  | conditional
  | parallel
  | loop
deriving DecidableEq, Repr

/-- A workflow state.  All fields other than `type` are optional, as
in the schema.  `maxIterations` is modelled as a natural number (the
schema allows any number; non-integral iteration caps are not used by
any theorem). -/
structure State where
  type : StateType
  prompt : Option String := none
  elicitation : Option Elicitation := none
  sampling : Option Sampling := none
  transitions : Option (List (String × String)) := none
  template : Option String := none
  tool : Option String := none
  parameters : Option VarMap := none
  handler : Option String := none
  condition : Option String := none
  onTrue : Option String := none
  onFalse : Option String := none
  branches : Option (List String) := none
  body : Option String := none
  maxIterations : Option ℕ := none

/-- A workflow: initial state id, states in declaration order,
optional step budget. -/
structure Workflow where
  initial : String
  states : List (String × State)
  maxSteps : Option ℕ := none

/-- Association-list lookup, first match (JavaScript object keys are
unique, so first match is the only match). -/
def lookupAssoc {α : Type} : List (String × α) → String → Option α
  | [], _ => none
  | (k', v) :: rest, k => if k' = k then some v else lookupAssoc rest k

/-- JavaScript truthiness of an optional string field: present and
nonempty. -/
def optStrTruthy : Option String → Bool
  | some s => s != ""
  | none => false

/-! ## The workflow executor (`workflow-executor.ts`)

External collaborators are supplied as oracles: the elicitation
service (only its returned `value` is observed), the sampling service
(only the returned `content`), the loaded tool handler (name and
substituted parameters to result; `Effect.isEffect`/promise unwrapping
is immaterial in a pure model) and the clock.  The host
regular-expression engine is the separate oracle `rt` so that the
statements about collaborator-independence do not quantify over it.
Logging, the per-step timeout and the retry schedule are not modelled:
logging has no observable effect here, and retrying a deterministic
step reproduces the same outcome. -/

/-- The collaborator services the executor calls into. -/
structure Services where
  requestElicitation : Elicitation → VarMap → JSVal
  createCompletion : Sampling → VarMap → String
  loadToolHandler : String → VarMap → JSVal
  now : ℕ

/-- `{` as text. -/
def braceL : String := "\x7b"

/-- `}` as text. -/
def braceR : String := "\x7d"

/-- The token `{key}`. -/
def braced (k : String) : String := braceL ++ k ++ braceR

/-- Template substitution of the `response` state: for each variable,
in insertion order, replace every occurrence of `{key}` by the
stringified value.  (The source builds the needle as a regexp from the
raw key; keys containing regexp metacharacters are not modelled and
appear in no theorem.) -/
def substituteTemplate (template : String) (vars : VarMap) : String :=
  vars.foldl (fun acc kv => replaceAll acc (braced kv.1) (jsToString kv.2)) template

/-- Parameter substitution of the `tool` state.  The source iterates
the variables but always substitutes into the *original* string value,
so only the last variable's replacement survives; the fold below
reproduces that by discarding the accumulator. -/
def substituteParams (params : VarMap) (vars : VarMap) : VarMap :=
  params.map fun kv =>
    match kv.2 with
    | .str s =>
      (kv.1, .str (vars.foldl (fun _ w => replaceAll s (braced w.1) (jsToString w.2)) s))
    | v => (kv.1, v)

/-- What a single state execution yields: the state's result value,
the next state chosen so far, and the variables object after the
state's in-place mutations. -/
structure ExecResult where
  result : JSVal
  nextState : Option String
  vars : VarMap

/-- The transition-resolution tail of `executeState` (lines 255-270 of
the source): runs only when `nextState` is still falsy and the state
declares a `transitions` map; `default` first if its target is truthy,
then the exact stringified result key if both the result and the
looked-up target are truthy, then the first non-`default` key that
matches as a pattern. -/
def resolveTransitions (rt : String → String → Bool) (st : State) (result : JSVal)
    (nextState : Option String) : Option String :=
  if optStrTruthy nextState then nextState
  else
    match st.transitions with
    | none => nextState
    | some ts =>
      if optStrTruthy (lookupAssoc ts "default") then
        lookupAssoc ts "default"
      else if toBoolean result && optStrTruthy (lookupAssoc ts (jsToString result)) then
        lookupAssoc ts (jsToString result)
      else
        match ts.find? (fun p => p.1 != "default" && matchesPattern rt result p.1) with
        | some p => some p.2
        | none => nextState

/-- The merge of `parallel` branch results into the parent variables:
`"<branchId>_result"` per branch, in branch order. -/
def mergeBranchResults : List String → List JSVal → VarMap → VarMap
  | _, [], vs => vs
  | [], _, vs => vs
  | b :: bs, r :: rs, vs => mergeBranchResults bs rs (setVar vs (b ++ "_result") r)

/-- One pass of the `parallel` branch sweep, parametrized by the
executor for the branch states.  Every branch effect receives a copy
of the parent context whose `variables` field is the *same* object, so
the variables are threaded through the branches (`Effect.all` keeps
the results in branch order; with the collaborators modelled as pure
oracles the branch effects are deterministic, and their writes all
land in the one shared map).  A branch id naming no state makes the
source throw while building the branch effect; that is modelled as
`none`. -/
def runBranchesWith (wf : Workflow) (exec : State → String → VarMap → Option ExecResult) :
    List String → VarMap → Option (List JSVal × VarMap)
  | [], vs => some ([], vs)
  | b :: bs, vs =>
    match lookupAssoc wf.states b with
    | none => none
    | some sb =>
      match exec sb b vs with
      | none => none
      | some r =>
        match runBranchesWith wf exec bs r.vars with
        | none => none
        | some (rs, vs') => some (r.result :: rs, vs')

/-- The `loop` body, parametrized by the executor for the body state:
while iterations remain and the condition holds against the variables
extended with `iteration`, execute the body state (against the shared
variables) and accumulate its result. -/
def runLoopWith (wf : Workflow) (exec : State → String → VarMap → Option ExecResult)
    (cond bodyId : String) : ℕ → ℕ → VarMap → Option (List JSVal × VarMap)
  | _, 0, vs => some ([], vs)
  | iteration, remaining + 1, vs =>
    let env := setVar vs "iteration" (.num (.fin iteration))
    if !evaluateCondition cond env then some ([], vs)
    else
      match lookupAssoc wf.states bodyId with
      | none => none
      | some sb =>
        match exec sb bodyId vs with
        | none => none
        | some r =>
          match runLoopWith wf exec cond bodyId (iteration + 1) remaining r.vars with
          | none => none
          | some (rs, vs') => some (r.result :: rs, vs')

/-- The body of `executeState(state, context, workflow)`: the per-kind
switch followed by the transition-resolution tail, with `exec` the
executor used for `parallel` branches and `loop` bodies. -/
def executeStateBody (rt : String → String → Bool) (svc : Services)
    (exec : State → String → VarMap → Option ExecResult)
    (wf : Workflow) (st : State) (cur : String) (vars0 : VarMap) : Option ExecResult :=
  let afterSwitch : Option (JSVal × Option String × VarMap) :=
    match st.type with
    | .response =>
      some (.str (substituteTemplate (st.template.getD "") vars0), none, vars0)
    | .elicitation =>
      match st.elicitation with
      | some e =>
        let r := svc.requestElicitation e vars0
        some (r, none, setVar vars0 (cur ++ "_response") r)
      | none => some (.null, none, vars0)
    | .sampling =>
      match st.sampling with
      | some sp =>
        let c := svc.createCompletion sp vars0
        some (.str c, none, setVar vars0 (cur ++ "_completion") (.str c))
      | none =>
        if optStrTruthy st.prompt then
          let c := svc.createCompletion { prompt := st.prompt.getD "" } vars0
          some (.str c, none, setVar vars0 (cur ++ "_completion") (.str c))
        else some (.null, none, vars0)
    | .tool =>
      if optStrTruthy st.tool && st.parameters.isSome then
        let handlerName := match st.handler with
          | some h => if h != "" then h else st.tool.getD ""
          | none => st.tool.getD ""
        let ps := substituteParams (st.parameters.getD []) vars0
        let r := svc.loadToolHandler handlerName ps
        some (r, none, setVar vars0 (cur ++ "_result") r)
      else some (.null, none, vars0)
    | .conditional =>
      if optStrTruthy st.condition then
        let b := evaluateCondition (st.condition.getD "") vars0
        some (.bool b, (if b then st.onTrue else st.onFalse), vars0)
      else some (.null, none, vars0)
    | .parallel =>
      match st.branches with
      | some bs =>
        match runBranchesWith wf exec bs vars0 with
        | none => none
        | some (results, vars1) =>
          some (.list results, none, mergeBranchResults bs results vars1)
      | none => some (.null, none, vars0)
    | .loop =>
      if optStrTruthy st.condition && optStrTruthy st.body then
        let maxIter := match st.maxIterations with
          | some n => if n = 0 then 100 else n
          | none => 100
        match runLoopWith wf exec (st.condition.getD "") (st.body.getD "") 0 maxIter vars0 with
        | none => none
        | some (results, vars1) =>
          some (.list results, none, setVar vars1 (cur ++ "_results") (.list results))
      else some (.null, none, vars0)
  match afterSwitch with
  | none => none
  | some (result, ns, vars1) =>
    some { result := result, nextState := resolveTransitions rt st result ns, vars := vars1 }

/-- `executeState(state, context, workflow)`.  `fuel` bounds the
recursion through `parallel` branches and `loop` bodies (the source
would overflow the stack on the cycles fuel exhaustion cuts off);
`none` means the fuel ran out. -/
def executeState (rt : String → String → Bool) (svc : Services) :
    ℕ → Workflow → State → String → VarMap → Option ExecResult
  | 0, _, _, _, _ => none
  | fuel + 1, wf, st, cur, vars0 =>
    executeStateBody rt svc (executeState rt svc fuel wf) wf st cur vars0

/-- One history record: the state that just executed, the clock value,
and the shallow copy of the variables taken when the record is built. -/
structure HistoryEntry where
  state : String
  timestamp : ℕ
  vars : VarMap

/-- The execution context threaded through the run. -/
structure WorkflowContext where
  currentState : String
  vars : VarMap
  history : List HistoryEntry

/-- The failures `step` can produce in this model. -/
inductive StepErr where
  | stateNotFound (s : String)
  | fuelExhausted
deriving DecidableEq, Repr

/-- `step(workflow, context)`: look up the current state (failing with
a state-transition error when absent), execute it, then build the new
context: next state if one was chosen (a truthy one), the mutated
variables, and one appended history record whose snapshot is the
shallow copy `{...context.variables}` taken *after* the state
executed. -/
def step (rt : String → String → Bool) (svc : Services) (fuel : ℕ)
    (wf : Workflow) (ctx : WorkflowContext) : Except StepErr WorkflowContext :=
  match lookupAssoc wf.states ctx.currentState with
  | none => .error (.stateNotFound ctx.currentState)
  | some st =>
    match executeState rt svc fuel wf st ctx.currentState ctx.vars with
    | none => .error .fuelExhausted
    | some r =>
      .ok {
        currentState := match r.nextState with
          | some ns => if ns != "" then ns else ctx.currentState
          | none => ctx.currentState
        vars := r.vars
        history := ctx.history ++ [{ state := ctx.currentState, timestamp := svc.now, vars := r.vars }]
      }

/-- `validateWorkflow(workflow)`: false when the initial state is
missing or some state's truthy transition target names no state; true
otherwise.  The reachability sweep in the source only logs a warning
and never changes the returned value, so it does not appear here. -/
def validateWorkflow (wf : Workflow) : Bool :=
  if (lookupAssoc wf.states wf.initial).isNone then false
  else
    wf.states.all fun p =>
      match p.2.transitions with
      | none => true
      | some ts => ts.all fun t => t.2 == "" || (lookupAssoc wf.states t.2).isSome

/-- The failures `execute` can produce in this model.
`missingCurrentState` models the exception the driving loop throws
when it reads `.type` of an absent current state. -/
inductive ExecErr where
  | validationFailed
  | stepFailed (e : StepErr)
  | missingCurrentState (s : String)
deriving DecidableEq, Repr

/-- The effective step budget: `workflow.maxSteps || 1000` (a budget
of `0` is falsy in JavaScript and falls back to the default). -/
def maxStepsOf (wf : Workflow) : ℕ :=
  match wf.maxSteps with
  | some n => if n = 0 then 1000 else n
  | none => 1000

/-- The driving loop of `execute`: while steps remain, stop if the
current state is a `response` with no transitions (terminal),
otherwise take one step (the retry schedule re-runs a failed step,
which in this deterministic model reproduces the same failure), and
stop if the state did not change and the state that was just executed
declares no transitions. -/
def executeLoop (rt : String → String → Bool) (svc : Services) (fuel : ℕ) (wf : Workflow) :
    ℕ → WorkflowContext → Except ExecErr WorkflowContext
  | 0, ctx => .ok ctx
  | n + 1, ctx =>
    match lookupAssoc wf.states ctx.currentState with
    | none => .error (.missingCurrentState ctx.currentState)
    | some st =>
      if st.type == StateType.response && st.transitions.isNone then .ok ctx
      else
        match step rt svc fuel wf ctx with
        | .error e => .error (.stepFailed e)
        | .ok ctx' =>
          if ctx'.currentState == ctx.currentState && st.transitions.isNone then .ok ctx'
          else executeLoop rt svc fuel wf n ctx'

/-- `execute(workflow, initialContext)`: validate, then drive the loop
from the initial state with an empty history, for at most
`maxSteps` steps. -/
def execute (rt : String → String → Bool) (svc : Services) (fuel : ℕ)
    (wf : Workflow) (initialVars : VarMap) : Except ExecErr WorkflowContext :=
  if validateWorkflow wf then
    executeLoop rt svc fuel wf (maxStepsOf wf)
      { currentState := wf.initial, vars := initialVars, history := [] }
  else .error .validationFailed

/-! ## The elicitation service (`elicitation.service.ts`) -/

/-- The payload of a `ValidationError`. -/
structure ValidationError where
  field : String
  message : String
  value : JSVal

/-- The kind name as the source's string tag. -/
def ElicitationType.tag : ElicitationType → String
  | .confirm => "confirm"
  | .select => "select"
  | .text => "text"
  | .number => "number"

/-- `validateResponse(response, elicitation)` of the elicitation
service: `ok true` on acceptance, a typed validation error otherwise.
`rt` is the host regular-expression engine used by the `text` pattern
check. -/
def validateResponse (rt : String → String → Bool) (response : JSVal)
    (e : Elicitation) : Except ValidationError Bool :=
  match e.type with
  | .text =>
    match response with
    | .str s =>
      match e.pattern with
      | some p =>
        if rt p s then .ok true
        else .error ⟨"response", "Response does not match pattern: " ++ p, response⟩
      | none => .ok true
    | _ => .error ⟨"response", "Response must be a string", response⟩
  | .number =>
    let num := jsToNumber response
    if num.isNan then .error ⟨"response", "Response must be a number", response⟩
    else
      let checkMax : Except ValidationError Bool :=
        match e.max with
        | some m =>
          if JSNum.gtb num (.fin m) then
            .error ⟨"response", "Response must be <= " ++ ratToString m, response⟩
          else .ok true
        | none => .ok true
      match e.min with
      | some m =>
        if JSNum.ltb num (.fin m) then
          .error ⟨"response", "Response must be >= " ++ ratToString m, response⟩
        else checkMax
      | none => checkMax
  | .confirm =>
    let normalizedResponse := strToLower (jsToString response)
    if ["yes", "no", "y", "n", "true", "false"].contains normalizedResponse then .ok true
    else .error ⟨"response", "Response must be yes/no", response⟩
  | .select =>
    let includes := match e.options with
      | some os => os.contains (jsToString response)
      | none => false
    if includes then .ok true
    else
      let index := (jsToNumber response).subOne
      let len : ℕ := match e.options with
        | some os => os.length
        | none => 0
      if index.isNan || JSNum.ltb index (.fin 0) || JSNum.geb index (.fin (len : ℚ)) then
        .error ⟨"response",
          "Response must be one of: " ++
            (match e.options with
             | some os => String.intercalate ", " os
             | none => "undefined"), response⟩
      else .ok true

/-- Array read `options[index]` at a JavaScript numeric index: an
integral index in range reads the element, any other index reads
`undefined`. -/
def optionAt (os : List String) (index : JSNum) : JSVal :=
  match index with
  | .fin q => if q.den = 1 && 0 ≤ q.num && q.num.toNat < os.length then
      match os.get? q.num.toNat with
      | some s => .str s
      | none => .undef
    else .undef
  | _ => (.undef)

/-- `transformResponse(response, elicitation)` of the elicitation
service: `number` coerces numerically, `confirm` maps to the boolean
`value ∈ {yes, y, true}`, `select` resolves an in-range 1-based index
to its option text (a fractional in-range index reads `undefined` off
the array) and otherwise passes the raw value through, `text` is
unchanged. -/
def transformResponse (response : JSVal) (e : Elicitation) : JSVal :=
  match e.type with
  | .number => .num (jsToNumber response)
  | .confirm =>
    let normalized := strToLower (jsToString response)
    .bool (normalized == "yes" || normalized == "y" || normalized == "true")
  | .select =>
    let index := (jsToNumber response).subOne
    match e.options with
    | some os =>
      if !index.isNan && JSNum.geb index (.fin 0) && JSNum.ltb index (.fin (os.length : ℚ)) then
        optionAt os index
      else response
    | none => response
  | .text => response

/-! ## The fallback elicitation bridge (`elicitation-workaround.ts`)

The `ElicitationWorkaround` instance state (pending table and
conversation history) is explicit.  The `resolve`/`reject` hooks of
the promise stored with each pending entry are modelled by append-only
logs of resolutions and rejections, so "the waiter was resolved with
v" is the observable fact the logs record. -/

namespace Workaround

/-- One entry of the pending-elicitations table. -/
structure PendingEntry where
  elicitation : Elicitation
  context : Option VarMap := none

/-- One entry of the conversation history. -/
structure ConvEntry where
  id : String
  type : ElicitationType
  prompt : String
  response : Option JSVal := none
  timestamp : ℕ

/-- The mutable instance state of the bridge, plus the resolution and
rejection logs standing in for the stored promise hooks. -/
structure BridgeState where
  pendingElicitations : List (String × PendingEntry)
  conversationHistory : List ConvEntry
  resolved : List (String × JSVal) := []
  rejected : List (String × String) := []

/-- `Map.set`. -/
def setAssoc {α : Type} : List (String × α) → String → α → List (String × α)
  | [], k, v => [(k, v)]
  | (k', v') :: t, k, v => if k' = k then (k', v) :: t else (k', v') :: setAssoc t k v

/-- `Map.delete`. -/
def eraseAssoc {α : Type} : List (String × α) → String → List (String × α)
  | [], _ => []
  | (k, v) :: t, id => if k = id then t else (k, v) :: eraseAssoc t id

/-- `createElicitation`: register the pending entry under the fresh id
and append the conversation-history record (the generated id and
`Date.now()` are oracle inputs here; the five-minute timer is the
separate transition `timeoutFire`). -/
def createElicitation (st : BridgeState) (id : String) (e : Elicitation)
    (ctx : Option VarMap) (ts : ℕ) : BridgeState :=
  { st with
    pendingElicitations := setAssoc st.pendingElicitations id ⟨e, ctx⟩
    conversationHistory := st.conversationHistory ++ [⟨id, e.type, e.prompt, none, ts⟩] }

/-- The body of the five-minute timer: if the id is still pending,
delete it and reject the waiter with the timeout error; otherwise do
nothing. -/
def timeoutFire (st : BridgeState) (id : String) : BridgeState :=
  if (lookupAssoc st.pendingElicitations id).isSome then
    { st with
      pendingElicitations := eraseAssoc st.pendingElicitations id
      rejected := st.rejected ++ [(id, "Elicitation timeout")] }
  else st

/-- The bridge's own `validateResponse`: same rules as the service's,
returning the `{valid, error}` record of the source. -/
structure WValidation where
  valid : Bool
  error : Option String := none

/-- `validateResponse(response, elicitation)` of the bridge. -/
def validateResponse (rt : String → String → Bool) (response : JSVal)
    (e : Elicitation) : WValidation :=
  match ADF.validateResponse rt response e with
  | .ok _ => { valid := true }
  | .error err => { valid := false, error := some err.message }

/-- `transformResponse(response, elicitation)` of the bridge (same
logic as the service's). -/
def transformResponse (response : JSVal) (e : Elicitation) : JSVal :=
  ADF.transformResponse response e

/-- `getElicitationInstructions(elicitation)` of the bridge. -/
def getElicitationInstructions (e : Elicitation) : String :=
  let typeSpecific : List String :=
    match e.type with
    | .select =>
      ["Choose one of the following options: " ++
        (match e.options with
         | some os => String.intercalate ", " os
         | none => "undefined")]
    | .confirm => ["Respond with \"yes\" or \"no\""]
    | .number =>
      (match e.min with
       | some m => ["Minimum value: " ++ ratToString m]
       | none => []) ++
      (match e.max with
       | some m => ["Maximum value: " ++ ratToString m]
       | none => [])
    | .text =>
      match e.pattern with
      | some p => ["Must match pattern: " ++ p]
      | none => []
  let requiredLine : List String :=
    match e.required with
    | some false => []
    | _ => ["This response is required."]
  String.intercalate "\n"
    ((("Please provide a " ++ e.type.tag ++ " response.") :: typeSpecific) ++ requiredLine)

/-- Serialization used in the accepted reply (`JSON.stringify`
interpolated into text; string escaping beyond the surrounding quotes
is not modelled and appears in no theorem). -/
def jsonStringify : JSVal → String
  | .undef => "undefined"
  | .null => "null"
  | .bool true => "true"
  | .bool false => "false"
  | .num n => n.render
  | .str s => "\"" ++ s ++ "\""
  | .list xs => "[" ++ String.intercalate "," (xs.map fun v =>
      match v with
      | .str s => "\"" ++ s ++ "\""
      | .undef => "null"
      | .null => "null"
      | .bool true => "true"
      | .bool false => "false"
      | .num n => n.render
      | .list _ => "") ++ "]"

/-- The text reply of the response action: the rejection text keeps
the entry pending, the acceptance text accompanies resolution. -/
inductive HandleReply where
  | invalid (text : String)
  | accepted (text : String)

/-- `handleResponse(id, response)` of the bridge: unknown ids throw;
an invalid response returns the rejection reason and instructions,
leaving every part of the state unchanged; a valid response transforms
the value, records it on the (first) conversation-history entry of
that id, resolves the waiter with it, and deletes the pending entry. -/
def handleResponse (rt : String → String → Bool) (st : BridgeState) (id : String)
    (response : JSVal) : Except String (BridgeState × HandleReply) :=
  match lookupAssoc st.pendingElicitations id with
  | none => .error ("Elicitation " ++ id ++ " not found")
  | some pending =>
    let validation := validateResponse rt response pending.elicitation
    if !validation.valid then
      .ok (st, .invalid ("Invalid response: " ++ validation.error.getD "undefined" ++
        "\n\n" ++ getElicitationInstructions pending.elicitation))
    else
      let transformed := transformResponse response pending.elicitation
      .ok ({ st with
          conversationHistory := updateHistoryResponse st.conversationHistory id transformed
          pendingElicitations := eraseAssoc st.pendingElicitations id
          resolved := st.resolved ++ [(id, transformed)] },
        .accepted ("Response accepted: " ++ jsonStringify transformed))
where
  /-- `this.conversationHistory.find(h => h.id === id)` followed by the
  in-place response write: only the first matching record changes. -/
  updateHistoryResponse : List ConvEntry → String → JSVal → List ConvEntry
    | [], _, _ => []
    | h :: t, i, v =>
      if h.id = i then { h with response := some v } :: t
      else h :: updateHistoryResponse t i v

end Workaround

/-! ## Specification-side definitions

These follow the wording of the specification (after amendment where
the source diverges), for comparison with the embedded code. -/

/-- A state with the `onTrue`/`onFalse`/`branches`/`body` references
removed.  `validateWorkflow` never reads these fields, which the
characterization theorem states as invariance under this scrub. -/
def scrubRefs (st : State) : State :=
  { st with onTrue := none, onFalse := none, branches := none, body := none }

/-- Transition resolution as the (amended) specification words it:
the `default` key wins when it holds a truthy target; otherwise, for a
truthy result, a truthy entry at the exact stringified result;
otherwise the first non-`default` key matching as a pattern; otherwise
nothing. -/
def resolutionSpec (rt : String → String → Bool) (ts : List (String × String))
    (result : JSVal) : Option String :=
  if optStrTruthy (lookupAssoc ts "default") then
    lookupAssoc ts "default"
  else if toBoolean result && optStrTruthy (lookupAssoc ts (jsToString result)) then
    lookupAssoc ts (jsToString result)
  else
    (ts.find? fun p => p.1 != "default" && matchesPattern rt result p.1).map Prod.snd

/-- The value a `response`-kind branch produces: its template
substituted against the given variables. -/
def branchResponseValue (wf : Workflow) (b : String) (vars : VarMap) : JSVal :=
  .str (substituteTemplate (((lookupAssoc wf.states b).bind State.template).getD "") vars)

/-! ## Concrete fixtures for the theorems -/

/-- A regular-expression oracle for runs that exercise no `/…/`
pattern. -/
def noRegex : String → String → Bool := fun _ _ => false

/-- Concrete collaborators mirroring the repository's test layers:
elicitation answers `test-response`, sampling answers
`Test completion`, tools answer the string `out`. -/
def stubServices : Services where
  requestElicitation := fun _ _ => .str "test-response"
  createCompletion := fun _ _ => "Test completion"
  loadToolHandler := fun _ _ => .str "out"
  now := 0

/-- Collaborators whose tool handler returns the boolean `false`
(a falsy state result). -/
def boolToolServices : Services :=
  { stubServices with loadToolHandler := fun _ _ => .bool false }

/-- A workflow whose only state dangles a `conditional` reference:
`onTrue` names a missing state while no `transitions` map exists. -/
def wfC1 : Workflow where
  initial := "a"
  states := [("a", { type := .conditional, condition := some "c",
                     onTrue := some "missing", onFalse := some "a" })]

/-- A parallel state over the single branch `b`. -/
def stC2 : State := { type := .parallel, branches := some ["b"] }

/-- A workflow with a parallel state whose branch is a `loop` state
that iterates zero times (its condition names no variable) — the loop
still writes `b_results` into the shared variables. -/
def wfC2 : Workflow where
  initial := "p"
  states := [
    ("p", stC2),
    ("b", { type := .loop, condition := some "nope", body := some "b" })]

/-- A parallel state over two `response` branches. -/
def stC2w : State := { type := .parallel, branches := some ["x", "y"] }

/-- A workflow whose parallel state runs two `response` branches. -/
def wfC2w : Workflow where
  initial := "p"
  states := [
    ("p", stC2w),
    ("x", { type := .response, template := some "hi" }),
    ("y", { type := .response, template := some (braced "k") })]

/-- A tool state whose result will be the boolean `false`, with a
wildcard key declared before the exact key `"false"`. -/
def stC3 : State :=
  { type := .tool, tool := some "t", parameters := some [],
    transitions := some [("f*", "A"), ("false", "B")] }

/-- Host workflow for `stC3` (never looked up by `executeState`
itself). -/
def wfC3 : Workflow where
  initial := "a"
  states := [("a", stC3), ("A", { type := .response }), ("B", { type := .response })]

/-- A single recurring state whose only transition key matches
nothing, with a budget of three steps. -/
def wfC3spin : Workflow where
  initial := "a"
  states := [
    ("a", { type := .response, template := some "y", transitions := some [("x", "B")] }),
    ("B", { type := .response })]
  maxSteps := some 3

/-- A single self-contained state whose only transition key matches
nothing (its target is the state itself, so validation passes). -/
def stC3w : State :=
  { type := .response, template := some "y", transitions := some [("x", "a")] }

/-- Singleton workflow around `stC3w`, with a budget of three steps. -/
def wfC3w : Workflow where
  initial := "a"
  states := [("a", stC3w)]
  maxSteps := some 3

/-- The specification's two-state greeting workflow. -/
def wfC4 : Workflow where
  initial := "start"
  states := [
    ("start", { type := .response, template := some ("Hello " ++ braced "name"),
                transitions := some [("default", "end")] }),
    ("end", { type := .response, template := some ("Goodbye " ++ braced "name") })]

/-- A single tool state with no transitions: its execution writes
`a_result` and the run's one history record snapshots it. -/
def wfC5 : Workflow where
  initial := "a"
  states := [("a", { type := .tool, tool := some "t", parameters := some [] })]

/-- The self-transitioning state with a budget of five steps. -/
def wfC6 : Workflow where
  initial := "loop"
  states := [("loop", { type := .response, template := some "Looping",
                        transitions := some [("default", "loop")] })]
  maxSteps := some 5

/-- The specification's access-check workflow, with a `transitions`
map declared on the conditional state to exhibit the override. -/
def wfC7 : Workflow where
  initial := "check"
  states := [
    ("check", { type := .conditional, condition := some "hasAccess",
                onTrue := some "granted", onFalse := some "denied",
                transitions := some [("default", "other")] }),
    ("granted", { type := .response, template := some "Access granted" }),
    ("denied", { type := .response, template := some "Access denied" }),
    ("other", { type := .response })]

/-- A number elicitation with no declared bounds. -/
def numSpecUnbounded : Elicitation := { type := .number, prompt := "Enter number" }

/-- The specification's example: a number elicitation bounded to
`[1, 10]`. -/
def numSpec110 : Elicitation :=
  { type := .number, prompt := "Enter number", min := some 1, max := some 10 }

/-- A bridge state holding one pending number elicitation with its
conversation-history record. -/
def bridgeC9 : Workaround.BridgeState where
  pendingElicitations := [("e1", { elicitation := numSpec110 })]
  conversationHistory := [{ id := "e1", type := .number, prompt := "Enter number", timestamp := 0 }]

/-- An elicitation-kind state with no elicitation specification. -/
def stC10e : State := { type := .elicitation, prompt := some "ignored" }

/-- A sampling-kind state with neither a sampling specification nor a
bare prompt. -/
def stC10s : State := { type := .sampling }

/-- A tool-kind state with a tool name but no parameters. -/
def stC10t : State := { type := .tool, tool := some "t" }

/-- Host workflow for the three spec-less states. -/
def wfC10 : Workflow where
  initial := "a"
  states := [("a", stC10e), ("s", stC10s), ("t", stC10t)]

/-! ## Helper lemmas -/

/-- Lookup commutes with mapping a function over the values of an
association list. -/
theorem lookupAssoc_map {α β : Type} (f : α → β) (l : List (String × α)) (k : String) :
    lookupAssoc (l.map fun p => (p.1, f p.2)) k = (lookupAssoc l k).map f := by
  induction l with
  | nil => rfl
  | cons p t ih =>
    by_cases h : p.1 = k <;> simp [lookupAssoc, h, ih]

/-- `scrubRefs` does not touch the `transitions` field. -/
theorem scrubRefs_transitions (st : State) : (scrubRefs st).transitions = st.transitions := rfl

/-- `scrubRefs` does not touch the `type` field. -/
theorem scrubRefs_type (st : State) : (scrubRefs st).type = st.type := rfl

/-- Pointwise-equal predicates give equal `List.all`. -/
theorem listAllCongr {α : Type} {l : List α} {p q : α → Bool}
    (h : ∀ x ∈ l, p x = q x) : l.all p = l.all q := by
  induction l with
  | nil => rfl
  | cons x t ih =>
    simp only [List.all_cons]
    rw [h x (List.mem_cons_self x t), ih fun y hy => h y (List.mem_cons_of_mem x hy)]

/-! ## The claims -/

/-- **C1** counterexample: in `wfC1` the only state's `onTrue` names
the missing state `"missing"`, yet `validateWorkflow` accepts the
workflow, so removing an `onTrue`-referenced target does *not* make
validation fail as the claim requires. -/
theorem C1_counterexample :
    validateWorkflow wfC1 = true ∧
    (lookupAssoc wfC1.states "a").map State.onTrue = some (some "missing") ∧
    lookupAssoc wfC1.states "missing" = none :=
  ⟨rfl, rfl, rfl⟩

/-- **C1** (amended).  `validateWorkflow` returns valid exactly when
the initial state exists and every non-empty `transitions` target
names an existing state.  It never reads the
`onTrue`/`onFalse`/`branches`/`body` references (validation is
invariant under scrubbing them), and its reachability sweep only logs
a warning, so unreachable states never fail validation. -/
theorem C1_validateWorkflow_characterization (wf : Workflow) :
    (validateWorkflow wf = true ↔
      ((lookupAssoc wf.states wf.initial).isSome = true ∧
        ∀ p ∈ wf.states, ∀ ts, p.2.transitions = some ts →
          ∀ t ∈ ts, t.2 = "" ∨ (lookupAssoc wf.states t.2).isSome = true)) ∧
    validateWorkflow { wf with states := wf.states.map fun p => (p.1, scrubRefs p.2) } =
      validateWorkflow wf := by
  constructor
  · unfold validateWorkflow
    split
    · next hn =>
      simp only [Option.isNone_iff_eq_none] at hn
      simp [hn]
    · next hn =>
      simp only [Option.isNone_iff_eq_none] at hn
      rw [List.all_eq_true]
      constructor
      · intro hv
        refine ⟨by simpa [Option.isSome_iff_exists, Option.ne_none_iff_exists'] using hn, ?_⟩
        intro p hp ts hts t ht
        have h1 := hv p hp
        rw [hts] at h1
        have h2 := List.all_eq_true.mp h1 t ht
        simpa [Bool.or_eq_true, beq_iff_eq] using h2
      · rintro ⟨-, h2⟩ p hp
        cases hts : p.2.transitions with
        | none => rfl
        | some ts =>
          rw [List.all_eq_true]
          intro t ht
          have := h2 p hp ts hts t ht
          simpa [Bool.or_eq_true, beq_iff_eq] using this
  · unfold validateWorkflow
    rw [lookupAssoc_map]
    cases lookupAssoc wf.states wf.initial with
    | none => rfl
    | some st =>
      have hA : ¬((Option.map scrubRefs (some st)).isNone = true) := by simp
      have hB : ¬((some st : Option State).isNone = true) := by simp
      rw [if_neg hA, if_neg hB, List.all_map]
      apply listAllCongr
      intro p _
      simp only [Function.comp_apply, scrubRefs_transitions]
      cases p.2.transitions with
      | none => rfl
      | some ts =>
        apply listAllCongr
        intro t _
        rw [lookupAssoc_map]
        cases lookupAssoc wf.states t.2 <;> rfl

/-- **C4**: running the specification's greeting workflow with
`{name: "Alice"}` ends at `"end"` with `name` still `"Alice"` — but
with **one** history record, not the two the specification states.
The driving loop classifies `"end"` as terminal *before* stepping it,
so the terminal state is never executed or recorded; the repository's
own executor test (`should stop at terminal states`) expects one
record per visited state *including* the terminal one, which the code
contradicts. -/
theorem C4_greeting_run :
    (execute noRegex stubServices 1 wfC4 [("name", .str "Alice")]).map
        (fun ctx => (ctx.currentState, (lookupVar ctx.vars "name").map jsToString,
          ctx.history.length))
      = .ok ("end", some "Alice", 1) ∧ (1 : ℕ) ≠ 2 :=
  ⟨rfl, by decide⟩

/-- **C2** counterexample: a `parallel` state whose single branch `b`
is a zero-iteration `loop`.  The branch runs against the *shared*
parent variables (the per-branch context copy is shallow), so its own
`b_results` write lands in the parent map; afterwards the parent
variables carry the keys `v`, `b_results`, `b_result` — not the prior
variables extended by exactly the one key `b_result` per branch. -/
theorem C2_counterexample :
    (executeState noRegex stubServices 2 wfC2 stC2 "p" [("v", .str "x")]).map
        (fun r => r.vars.map Prod.fst) = some ["v", "b_results", "b_result"] ∧
    ["v", "b_results", "b_result"] ≠ ["v", "b_result"] :=
  ⟨rfl, by decide⟩

/-- **C3** counterexample.  First: a `tool` state produces the falsy
result `false` under transitions `{"f*": "A", "false": "B"}`; the
claim's priority order picks the exact stringified key (`"B"`), but
the code skips the exact-key step for falsy results and the wildcard
pattern wins (`"A"`).  Second: a state whose declared transitions map
matches nothing keeps its state yet is *not* halted by
stuck-detection (which requires the state to declare no transitions at
all): with a budget of three steps the run records three history
entries instead of stopping after the first unchanged step. -/
theorem C3_counterexample :
    (executeState noRegex boolToolServices 1 wfC3 stC3 "a" []).map
        (fun r => (jsToString r.result, r.nextState)) = some ("false", some "A") ∧
    some "A" ≠ some "B" ∧
    (execute noRegex stubServices 1 wfC3spin []).map
        (fun ctx => (ctx.currentState, ctx.history.length)) = .ok ("a", 3) ∧
    (3 : ℕ) ≠ 1 :=
  ⟨rfl, by decide, rfl, by decide⟩

/-- **C5** counterexample: stepping a `tool` state from empty
variables produces one history record whose snapshot already contains
the state's own output `a_result` — the snapshot is taken *after* the
state executes, not before as the claim states. -/
theorem C5_counterexample :
    (step noRegex stubServices 1 wfC5 ⟨"a", [], []⟩).map
        (fun ctx => ctx.history.map fun h => (h.state, h.vars.map Prod.fst))
      = .ok [("a", ["a_result"])] ∧
    ["a_result"] ≠ ([] : List String) :=
  ⟨rfl, by decide⟩

/-- **C8** counterexample: with no declared bounds, the raw response
`"Infinity"` is accepted by the number validation although it does not
parse as a *finite* number — the code only rejects `NaN`. -/
theorem C8_counterexample :
    validateResponse noRegex (.str "Infinity") numSpecUnbounded = .ok true ∧
    (jsToNumber (.str "Infinity")).isFinite = false :=
  ⟨rfl, rfl⟩

/-- A successful `step` appends exactly one history record, for the
state that was stepped, with the clock value and the variables of the
*resulting* context (the snapshot is the shallow copy taken after the
state executed). -/
theorem step_history (rt : String → String → Bool) (svc : Services) (fuel : ℕ)
    (wf : Workflow) (ctx ctx' : WorkflowContext)
    (h : step rt svc fuel wf ctx = .ok ctx') :
    ctx'.history = ctx.history ++
      [{ state := ctx.currentState, timestamp := svc.now, vars := ctx'.vars }] := by
  unfold step at h
  split at h
  · exact absurd h (by simp)
  · split at h
    · exact absurd h (by simp)
    · injection h with h
      subst h
      rfl

/-- A truthy already-chosen next state short-circuits transition
resolution. -/
theorem resolveTransitions_of_truthy (rt : String → String → Bool) (st : State)
    (result : JSVal) (ns : Option String) (h : optStrTruthy ns = true) :
    resolveTransitions rt st result ns = ns := by
  unfold resolveTransitions
  rw [h]
  simp

/-- **C5** (amended).  Every successful step appends exactly one
record `{state, timestamp, snapshot}` to the ordered history, but the
snapshot is the shallow copy of the variables taken *after* the state
executed (it equals the new context's variables), so a state's own
outputs such as `"<id>_result"` do appear in its own record; only for
non-mutating kinds does it coincide with the pre-execution
variables. -/
theorem C5_history_record (rt : String → String → Bool) (svc : Services) (fuel : ℕ)
    (wf : Workflow) (ctx ctx' : WorkflowContext)
    (h : step rt svc fuel wf ctx = .ok ctx') :
    ctx'.history = ctx.history ++
      [{ state := ctx.currentState, timestamp := svc.now, vars := ctx'.vars }] :=
  step_history rt svc fuel wf ctx ctx' h

/-- Witness for `C5_history_record` at the tool-state fixture. -/
theorem C5_history_record_witness :
    (⟨"a", [("a_result", .str "out")],
        [⟨"a", 0, [("a_result", .str "out")]⟩]⟩ : WorkflowContext).history
      = (⟨"a", [], []⟩ : WorkflowContext).history ++
        [{ state := "a", timestamp := 0, vars := [("a_result", JSVal.str "out")] }] :=
  C5_history_record noRegex stubServices 1 wfC5 ⟨"a", [], []⟩
    ⟨"a", [("a_result", .str "out")], [⟨"a", 0, [("a_result", .str "out")]⟩]⟩ rfl

/-- **C7**: for a conditional state with a declared (truthy) condition
and declared nonempty `onTrue` and `onFalse` targets, `step` moves
directly to `onTrue` when the condition evaluates truthy and to
`onFalse` when it evaluates falsy, whatever `transitions` map the
state declares (the declared next state short-circuits transition
resolution). -/
theorem C7_conditional_override (rt : String → String → Bool) (svc : Services) (fuel : ℕ)
    (wf : Workflow) (st : State) (ctx : WorkflowContext) (c t f : String)
    (hst : lookupAssoc wf.states ctx.currentState = some st)
    (hty : st.type = StateType.conditional)
    (hc : st.condition = some c) (hcne : c ≠ "")
    (ht : st.onTrue = some t) (htne : t ≠ "")
    (hf : st.onFalse = some f) (hfne : f ≠ "") :
    step rt svc (fuel + 1) wf ctx = .ok {
      currentState := if evaluateCondition c ctx.vars then t else f
      vars := ctx.vars
      history := ctx.history ++
        [{ state := ctx.currentState, timestamp := svc.now, vars := ctx.vars }] } := by
  have hcond : optStrTruthy st.condition = true := by
    rw [hc]; simpa [optStrTruthy, bne_iff_ne] using hcne
  have hcond2 : optStrTruthy (some c) = true := by
    simpa [optStrTruthy, bne_iff_ne] using hcne
  cases hb : evaluateCondition c ctx.vars with
  | true =>
    have htt : optStrTruthy (some t) = true := by
      simpa [optStrTruthy, bne_iff_ne] using htne
    have hexec : executeState rt svc (fuel + 1) wf st ctx.currentState ctx.vars =
        some { result := .bool true, nextState := some t, vars := ctx.vars } := by
      show executeStateBody rt svc (executeState rt svc fuel wf) wf st ctx.currentState
        ctx.vars = _
      unfold executeStateBody
      rw [hty]
      simp only [hc, hcond2, Option.getD_some, hb, ht, if_true, eq_self_iff_true]
      rw [resolveTransitions_of_truthy rt st (.bool true) (some t) htt]
    unfold step
    rw [hst]
    dsimp only
    rw [hexec]
    have htb : (t != "") = true := by simpa [bne_iff_ne] using htne
    dsimp only
    simp only [htb]
    rfl
  | false =>
    have hft : optStrTruthy (some f) = true := by
      simpa [optStrTruthy, bne_iff_ne] using hfne
    have hexec : executeState rt svc (fuel + 1) wf st ctx.currentState ctx.vars =
        some { result := .bool false, nextState := some f, vars := ctx.vars } := by
      show executeStateBody rt svc (executeState rt svc fuel wf) wf st ctx.currentState
        ctx.vars = _
      unfold executeStateBody
      rw [hty]
      simp only [hc, hcond2, Option.getD_some, hb, hf, if_true, eq_self_iff_true,
        Bool.false_eq_true, if_false]
      rw [resolveTransitions_of_truthy rt st (.bool false) (some f) hft]
    unfold step
    rw [hst]
    dsimp only
    rw [hexec]
    have hfb : (f != "") = true := by simpa [bne_iff_ne] using hfne
    dsimp only
    simp only [hfb]
    rfl

/-- Witness for `C7_conditional_override`: the access-check fixture
moves to `granted` under `{hasAccess: true}` and to `denied` under
`{hasAccess: false}`, despite its declared `transitions` map. -/
theorem C7_conditional_override_witness :
    step noRegex stubServices 1 wfC7 ⟨"check", [("hasAccess", .bool true)], []⟩ = .ok
      ⟨"granted", [("hasAccess", .bool true)],
        [⟨"check", 0, [("hasAccess", .bool true)]⟩]⟩ ∧
    step noRegex stubServices 1 wfC7 ⟨"check", [("hasAccess", .bool false)], []⟩ = .ok
      ⟨"denied", [("hasAccess", .bool false)],
        [⟨"check", 0, [("hasAccess", .bool false)]⟩]⟩ :=
  ⟨C7_conditional_override noRegex stubServices 0 wfC7 _ _ "hasAccess" "granted" "denied"
      rfl rfl rfl (by decide) rfl (by decide) rfl (by decide),
    C7_conditional_override noRegex stubServices 0 wfC7 _ _ "hasAccess" "granted" "denied"
      rfl rfl rfl (by decide) rfl (by decide) rfl (by decide)⟩

/-- **C10**: a state of kind `elicitation` without an elicitation
specification, of kind `sampling` with neither a sampling
specification nor a truthy bare prompt, or of kind `tool` without a
truthy tool name or without parameters, executes as a silent no-op: no
collaborator is consulted (the outcome is identical under any two
collaborator stacks), the produced result is `null`, the variables are
untouched (so no namespaced output key is stored), and the step
succeeds, appending only its history record. -/
theorem C10_missing_spec_noop (rt : String → String → Bool) (svc svc' : Services) (fuel : ℕ)
    (wf : Workflow) (ctx : WorkflowContext) (st : State)
    (hst : lookupAssoc wf.states ctx.currentState = some st)
    (h : (st.type = StateType.elicitation ∧ st.elicitation = none) ∨
         (st.type = StateType.sampling ∧ st.sampling = none ∧ optStrTruthy st.prompt = false) ∨
         (st.type = StateType.tool ∧
           (optStrTruthy st.tool = false ∨ st.parameters = none))) :
    ∃ r, executeState rt svc (fuel + 1) wf st ctx.currentState ctx.vars = some r ∧
      r.result = .null ∧ r.vars = ctx.vars ∧
      executeState rt svc' (fuel + 1) wf st ctx.currentState ctx.vars = some r ∧
      ∃ ctx', step rt svc (fuel + 1) wf ctx = .ok ctx' ∧ ctx'.vars = ctx.vars ∧
        ctx'.history = ctx.history ++
          [{ state := ctx.currentState, timestamp := svc.now, vars := ctx.vars }] := by
  have hexec : ∀ s : Services,
      executeState rt s (fuel + 1) wf st ctx.currentState ctx.vars =
        some { result := .null, nextState := resolveTransitions rt st .null none
               vars := ctx.vars } := by
    intro s
    show executeStateBody rt s (executeState rt s fuel wf) wf st ctx.currentState ctx.vars = _
    unfold executeStateBody
    rcases h with ⟨hty, hel⟩ | ⟨hty, hsa, hpr⟩ | ⟨hty, htool⟩
    · rw [hty, hel]
    · rw [hty, hsa]
      simp [hpr]
    · rw [hty]
      have hcnd : (optStrTruthy st.tool && st.parameters.isSome) = false := by
        rcases htool with h1 | h1
        · simp [h1]
        · simp [h1]
      simp [hcnd]
  have hstep : step rt svc (fuel + 1) wf ctx = .ok
      { currentState := match resolveTransitions rt st .null none with
          | some ns => if ns != "" then ns else ctx.currentState
          | none => ctx.currentState
        vars := ctx.vars
        history := ctx.history ++
          [{ state := ctx.currentState, timestamp := svc.now, vars := ctx.vars }] } := by
    unfold step
    rw [hst]
    dsimp only
    rw [hexec svc]
  exact ⟨_, hexec svc, rfl, rfl, hexec svc', _, hstep, rfl, rfl⟩

/-- Each driving-loop round adds at most one history record per
remaining step. -/
theorem executeLoop_history_le (rt : String → String → Bool) (svc : Services) (fuel : ℕ)
    (wf : Workflow) :
    ∀ (n : ℕ) (ctx ctx' : WorkflowContext),
      executeLoop rt svc fuel wf n ctx = .ok ctx' →
      ctx'.history.length ≤ ctx.history.length + n := by
  intro n
  induction n with
  | zero =>
    intro ctx ctx' h
    unfold executeLoop at h
    injection h with h
    subst h
    simp
  | succ n ih =>
    intro ctx ctx' h
    unfold executeLoop at h
    split at h
    · exact absurd h (by simp)
    · split at h
      · injection h with h
        subst h
        omega
      · split at h
        · exact absurd h (by simp)
        · next ctx2 hstep =>
          have hlen : ctx2.history.length = ctx.history.length + 1 := by
            rw [step_history rt svc fuel wf ctx ctx2 hstep]
            simp
          split at h
          · injection h with h
            subst h
            omega
          · have := ih ctx2 ctx' h
            omega

/-- **C6**: whenever `execute` finishes, the history holds at most the
workflow's effective step budget (`maxSteps`, defaulting to 1000, a
zero budget being falsy and also falling back to the default); and the
self-transitioning fixture with `maxSteps: 5` halts at its own state
after exactly five history records. -/
theorem C6_history_bounded (rt : String → String → Bool) (svc : Services) (fuel : ℕ)
    (wf : Workflow) (v : VarMap) (ctx' : WorkflowContext)
    (h : execute rt svc fuel wf v = .ok ctx') :
    ctx'.history.length ≤ maxStepsOf wf ∧
    (execute noRegex stubServices 1 wfC6 []).map
      (fun c => (c.currentState, c.history.length)) = .ok ("loop", 5) := by
  constructor
  · unfold execute at h
    split at h
    · simpa using executeLoop_history_le rt svc fuel wf (maxStepsOf wf) _ _ h
    · exact absurd h (by simp)
  · rfl

/-- Witness for `C6_history_bounded` at the self-transitioning
fixture run. -/
theorem C6_history_bounded_witness :
    (⟨"loop", [], List.replicate 5 ⟨"loop", 0, []⟩⟩ : WorkflowContext).history.length ≤
      maxStepsOf wfC6 ∧
    (execute noRegex stubServices 1 wfC6 []).map
      (fun c => (c.currentState, c.history.length)) = .ok ("loop", 5) :=
  C6_history_bounded noRegex stubServices 1 wfC6 []
    ⟨"loop", [], List.replicate 5 ⟨"loop", 0, []⟩⟩ rfl

/-- **C8** (amended).  A number-kind validation accepts a raw value
exactly when it coerces to a number other than `NaN` — infinities
included, so "finite" is too strong — that is not below a declared
`min` nor above a declared `max`; with the example bounds `[1, 10]`,
`"42"` is rejected, `"5"` is accepted and transforms to the number
`5`. -/
theorem C8_number_validation (rt : String → String → Bool) (e : Elicitation) (response : JSVal)
    (hty : e.type = ElicitationType.number) :
    (validateResponse rt response e = .ok true ↔
      ((jsToNumber response).isNan = false ∧
        (match e.min with
         | some m => JSNum.ltb (jsToNumber response) (.fin m) = false
         | none => True) ∧
        (match e.max with
         | some m => JSNum.gtb (jsToNumber response) (.fin m) = false
         | none => True))) ∧
    validateResponse rt (.str "42") numSpec110 =
      .error ⟨"response", "Response must be <= 10", .str "42"⟩ ∧
    validateResponse rt (.str "5") numSpec110 = .ok true ∧
    transformResponse (.str "5") numSpec110 = .num (jsToNumber (.str "5")) ∧
    (jsToNumber (.str "5")).isNan = false := by
  refine ⟨?_, rfl, rfl, rfl, rfl⟩
  unfold validateResponse
  rw [hty]
  cases hn : (jsToNumber response).isNan with
  | true => simp [hn]
  | false =>
    cases hm : e.min with
    | none =>
      cases hx : e.max with
      | none => simp [hn, hm, hx]
      | some mx =>
        cases hg : JSNum.gtb (jsToNumber response) (.fin mx) with
        | true => simp [hn, hm, hx, hg]
        | false => simp [hn, hm, hx, hg]
    | some m =>
      cases hl : JSNum.ltb (jsToNumber response) (.fin m) with
      | true => simp [hn, hm, hl]
      | false =>
        cases hx : e.max with
        | none => simp [hn, hm, hl, hx]
        | some mx =>
          cases hg : JSNum.gtb (jsToNumber response) (.fin mx) with
          | true => simp [hn, hm, hl, hx, hg]
          | false => simp [hn, hm, hl, hx, hg]

/-- Witness for `C8_number_validation` at the bounded fixture and the
response `"5"`. -/
theorem C8_number_validation_witness :
    validateResponse noRegex (.str "5") numSpec110 = .ok true :=
  (C8_number_validation noRegex numSpec110 (.str "5") rfl).2.2.1

/-- With no next state chosen yet and a declared transitions map, the
embedded resolution tail equals the specification-side priority
description. -/
theorem resolveTransitions_none_spec (rt : String → String → Bool) (st : State)
    (ts : List (String × String)) (result : JSVal) (hts : st.transitions = some ts) :
    resolveTransitions rt st result none = resolutionSpec rt ts result := by
  unfold resolveTransitions resolutionSpec
  rw [hts]
  have h0 : optStrTruthy (none : Option String) = false := rfl
  rw [h0]
  simp only [Bool.false_eq_true, if_false]
  cases hfind : ts.find? (fun p => p.1 != "default" && matchesPattern rt result p.1) <;>
    simp [hfind]

/-- Stepping a `response` state whose transitions resolve to nothing
leaves the current state unchanged (and still appends the one history
record). -/
theorem step_response_nomatch (rt : String → String → Bool) (svc : Services) (fuel : ℕ)
    (wf : Workflow) (ctx : WorkflowContext) (st : State) (ts : List (String × String))
    (hst : lookupAssoc wf.states ctx.currentState = some st)
    (hty : st.type = StateType.response) (hts : st.transitions = some ts)
    (hn : resolutionSpec rt ts (.str (substituteTemplate (st.template.getD "") ctx.vars)) = none) :
    step rt svc (fuel + 1) wf ctx = .ok ⟨ctx.currentState, ctx.vars,
      ctx.history ++ [⟨ctx.currentState, svc.now, ctx.vars⟩]⟩ := by
  have hexec : executeState rt svc (fuel + 1) wf st ctx.currentState ctx.vars =
      some { result := .str (substituteTemplate (st.template.getD "") ctx.vars)
             nextState := none, vars := ctx.vars } := by
    show executeStateBody rt svc (executeState rt svc fuel wf) wf st ctx.currentState
      ctx.vars = _
    unfold executeStateBody
    rw [hty]
    dsimp only
    rw [resolveTransitions_none_spec rt st ts _ hts, hn]
  unfold step
  rw [hst]
  dsimp only
  rw [hexec]

/-- A single-state workflow whose response state resolves no
transition spins in place: every remaining round re-steps the same
state and appends one identical history record. -/
theorem executeLoop_spin (rt : String → String → Bool) (svc : Services) (fuel : ℕ)
    (wf : Workflow) (st : State) (ts : List (String × String)) (vars : VarMap)
    (hwf : wf.states = [(wf.initial, st)])
    (hty : st.type = StateType.response) (hts : st.transitions = some ts)
    (hn : resolutionSpec rt ts (.str (substituteTemplate (st.template.getD "") vars)) = none) :
    ∀ (n : ℕ) (hist : List HistoryEntry),
      executeLoop rt svc (fuel + 1) wf n ⟨wf.initial, vars, hist⟩ =
        .ok ⟨wf.initial, vars, hist ++ List.replicate n ⟨wf.initial, svc.now, vars⟩⟩ := by
  have hlook : lookupAssoc wf.states wf.initial = some st := by
    rw [hwf]; simp [lookupAssoc]
  intro n
  induction n with
  | zero =>
    intro hist
    unfold executeLoop
    simp
  | succ n ih =>
    intro hist
    unfold executeLoop
    try dsimp only
    rw [hlook]
    try dsimp only
    have hterm : (st.type == StateType.response && st.transitions.isNone) = false := by
      rw [hts]; simp
    rw [hterm]
    try dsimp only
    rw [step_response_nomatch rt svc fuel wf ⟨wf.initial, vars, hist⟩ st ts hlook hty hts hn]
    try dsimp only
    have hstuck : (wf.initial == wf.initial && st.transitions.isNone) = false := by
      rw [hts]; simp
    rw [hstuck]
    simp only [Bool.false_eq_true, if_false]
    have hrec := ih (hist ++ [{ state := wf.initial, timestamp := svc.now, vars := vars }])
    rw [List.append_assoc, List.singleton_append, ← List.replicate_succ] at hrec
    exact hrec


/-- **C3** (amended).  For a `response`-kind state with a declared
transitions map, the chosen next state follows this priority over the
map, keyed by the stringified result: a truthy `default` entry always
wins; otherwise, *only for a truthy result*, a truthy entry at the
exact stringified result (a falsy result — `null`, `false`, `0`, `""`
— skips this stage); otherwise the first non-`default` key matching as
a pattern (`/…/` regexp via the host engine, `*` wildcard anchored at
both ends, else exact match).  When nothing matches, the state keeps
its current id; stuck-detection halts the run only when the state
declares *no* transitions map, so a single no-match state with a
declared map re-steps until the `maxSteps` cap. -/
theorem C3_transition_resolution (rt : String → String → Bool) (svc : Services) (fuel : ℕ)
    (wf : Workflow) (st : State) (ctx : WorkflowContext) (ts : List (String × String))
    (hty : st.type = StateType.response) (hts : st.transitions = some ts) :
    (∃ r, executeState rt svc (fuel + 1) wf st ctx.currentState ctx.vars = some r ∧
      r.result = .str (substituteTemplate (st.template.getD "") ctx.vars) ∧
      r.nextState = resolutionSpec rt ts r.result) ∧
    (lookupAssoc wf.states ctx.currentState = some st →
      resolutionSpec rt ts (.str (substituteTemplate (st.template.getD "") ctx.vars)) = none →
      step rt svc (fuel + 1) wf ctx = .ok ⟨ctx.currentState, ctx.vars,
        ctx.history ++ [⟨ctx.currentState, svc.now, ctx.vars⟩]⟩) ∧
    (wf.states = [(wf.initial, st)] → validateWorkflow wf = true →
      resolutionSpec rt ts (.str (substituteTemplate (st.template.getD "") ctx.vars)) = none →
      execute rt svc (fuel + 1) wf ctx.vars = .ok ⟨wf.initial, ctx.vars,
        List.replicate (maxStepsOf wf) ⟨wf.initial, svc.now, ctx.vars⟩⟩) := by
  have hexec : executeState rt svc (fuel + 1) wf st ctx.currentState ctx.vars =
      some { result := .str (substituteTemplate (st.template.getD "") ctx.vars)
             nextState := resolutionSpec rt ts
               (.str (substituteTemplate (st.template.getD "") ctx.vars))
             vars := ctx.vars } := by
    show executeStateBody rt svc (executeState rt svc fuel wf) wf st ctx.currentState
      ctx.vars = _
    unfold executeStateBody
    rw [hty]
    try dsimp only
    rw [resolveTransitions_none_spec rt st ts _ hts]
  refine ⟨⟨_, hexec, rfl, rfl⟩, ?_, ?_⟩
  · intro hst hn
    exact step_response_nomatch rt svc fuel wf ctx st ts hst hty hts hn
  · intro hwf hval hn
    unfold execute
    rw [if_pos hval]
    simpa using executeLoop_spin rt svc fuel wf st ts ctx.vars hwf hty hts hn (maxStepsOf wf) []

/-- Witness for `C3_transition_resolution` at the self-contained
no-match fixture: the resolved next state is what the priority
description yields (nothing), the step keeps the state, and the run
spins to the three-step cap. -/
theorem C3_transition_resolution_witness :
    (∃ r, executeState noRegex stubServices 1 wfC3w stC3w "a" [] = some r ∧
      r.result = .str "y" ∧
      r.nextState = resolutionSpec noRegex [("x", "a")] r.result) ∧
    step noRegex stubServices 1 wfC3w ⟨"a", [], []⟩ = .ok ⟨"a", [], [⟨"a", 0, []⟩]⟩ ∧
    execute noRegex stubServices 1 wfC3w [] = .ok ⟨"a", [],
      List.replicate 3 ⟨"a", 0, []⟩⟩ := by
  have h := C3_transition_resolution noRegex stubServices 0 wfC3w stC3w ⟨"a", [], []⟩
    [("x", "a")] rfl rfl
  exact ⟨h.1, h.2.1 rfl rfl, h.2.2 rfl rfl rfl⟩

/-- Branch sweep over `response`-kind branches: every branch computes
its template against the variables it was handed, mutates nothing, and
the results arrive in branch order. -/
theorem runBranchesWith_responses (rt : String → String → Bool) (svc : Services) (fuel : ℕ)
    (wf : Workflow) :
    ∀ (bs : List String) (vs : VarMap),
      (∀ b ∈ bs, ∃ sb, lookupAssoc wf.states b = some sb ∧ sb.type = StateType.response) →
      runBranchesWith wf (executeState rt svc (fuel + 1) wf) bs vs =
        some (bs.map fun b => branchResponseValue wf b vs, vs) := by
  intro bs
  induction bs with
  | nil => intro vs _; rfl
  | cons b bs ih =>
    intro vs h
    obtain ⟨sb, hsb, hty⟩ := h b (List.mem_cons_self b bs)
    have hexec : executeState rt svc (fuel + 1) wf sb b vs =
        some { result := .str (substituteTemplate (sb.template.getD "") vs)
               nextState := resolveTransitions rt sb
                 (.str (substituteTemplate (sb.template.getD "") vs)) none
               vars := vs } := by
      show executeStateBody rt svc (executeState rt svc fuel wf) wf sb b vs = _
      unfold executeStateBody
      rw [hty]
    have hval : branchResponseValue wf b vs =
        .str (substituteTemplate (sb.template.getD "") vs) := by
      unfold branchResponseValue
      rw [hsb]
      rfl
    unfold runBranchesWith
    rw [hsb]
    try dsimp only
    rw [hexec]
    try dsimp only
    rw [ih vs fun x hx => h x (List.mem_cons_of_mem b hx)]
    try dsimp only
    rw [List.map_cons, hval]

/-- Merging listwise results equals a left fold of `setVar` writes in
branch order. -/
theorem mergeBranchResults_map (f : String → JSVal) :
    ∀ (bs : List String) (vs : VarMap),
      mergeBranchResults bs (bs.map f) vs =
        bs.foldl (fun acc b => setVar acc (b ++ "_result") (f b)) vs := by
  intro bs
  induction bs with
  | nil => intro vs; rfl
  | cons b t ih =>
    intro vs
    simp only [List.map_cons, List.foldl_cons]
    unfold mergeBranchResults
    exact ih _

/-- **C2** (amended).  The branch contexts of a `parallel` state share
the parent's variables object, so in general every branch write lands
in the one shared map visible to the parent and the other branches; in
the benign case where every listed branch is a non-mutating `response`
state, each branch evaluates its template against the prior variables,
all branches settle and their results are merged in branch order, and
the parent's variables afterwards are exactly the prior variables
extended with one `"<branchId>_result"` write per listed branch. -/
theorem C2_parallel_merge (rt : String → String → Bool) (svc : Services) (fuel : ℕ)
    (wf : Workflow) (st : State) (cur : String) (vars : VarMap) (bs : List String)
    (hty : st.type = StateType.parallel) (hbs : st.branches = some bs)
    (hresp : ∀ b ∈ bs, ∃ sb, lookupAssoc wf.states b = some sb ∧
      sb.type = StateType.response) :
    ∃ r, executeState rt svc (fuel + 2) wf st cur vars = some r ∧
      r.result = .list (bs.map fun b => branchResponseValue wf b vars) ∧
      r.vars = bs.foldl
        (fun acc b => setVar acc (b ++ "_result") (branchResponseValue wf b vars)) vars := by
  have hrun := runBranchesWith_responses rt svc fuel wf bs vars hresp
  have hexec : executeState rt svc (fuel + 2) wf st cur vars = some
      { result := .list (bs.map fun b => branchResponseValue wf b vars)
        nextState := resolveTransitions rt st
          (.list (bs.map fun b => branchResponseValue wf b vars)) none
        vars := bs.foldl
          (fun acc b => setVar acc (b ++ "_result") (branchResponseValue wf b vars)) vars } := by
    show executeStateBody rt svc (executeState rt svc (fuel + 1) wf) wf st cur vars = _
    unfold executeStateBody
    rw [hty, hbs]
    try dsimp only
    rw [hrun]
    try dsimp only
    rw [mergeBranchResults_map (fun b => branchResponseValue wf b vars) bs vars]
  exact ⟨_, hexec, rfl, rfl⟩

/-- Witness for `C2_parallel_merge` on two `response` branches. -/
theorem C2_parallel_merge_witness :
    ∃ r, executeState noRegex stubServices 2 wfC2w stC2w "p" [("k", .str "v")] = some r ∧
      r.result = .list [.str "hi", .str "v"] ∧
      r.vars = [("k", .str "v"), ("x_result", .str "hi"), ("y_result", .str "v")] := by
  have hresp : ∀ b ∈ ["x", "y"], ∃ sb, lookupAssoc wfC2w.states b = some sb ∧
      sb.type = StateType.response := by
    intro b hb
    simp only [List.mem_cons, List.not_mem_nil, or_false] at hb
    rcases hb with rfl | rfl
    · exact ⟨_, rfl, rfl⟩
    · exact ⟨_, rfl, rfl⟩
  obtain ⟨r, h1, h2, h3⟩ := C2_parallel_merge noRegex stubServices 0 wfC2w stC2w "p"
    [("k", .str "v")] ["x", "y"] rfl rfl hresp
  refine ⟨r, h1, ?_, ?_⟩
  · rw [h2]
    rfl
  · rw [h3]
    rfl

/-- Lookup misses when the key is absent from the key list. -/
theorem lookupAssoc_eq_none {α : Type} (l : List (String × α)) (k : String)
    (h : k ∉ l.map Prod.fst) : lookupAssoc l k = none := by
  induction l with
  | nil => rfl
  | cons p t ih =>
    simp only [List.map_cons, List.mem_cons] at h
    push_neg at h
    unfold lookupAssoc
    rw [if_neg fun hk => h.1 hk.symm]
    exact ih h.2

/-- With unique keys, deleting a key removes it from lookup. -/
theorem lookupAssoc_eraseAssoc_self {α : Type} (l : List (String × α)) (k : String)
    (h : (l.map Prod.fst).Nodup) : lookupAssoc (Workaround.eraseAssoc l k) k = none := by
  induction l with
  | nil => rfl
  | cons p t ih =>
    simp only [List.map_cons, List.nodup_cons] at h
    unfold Workaround.eraseAssoc
    by_cases hk : p.1 = k
    · rw [if_pos hk]
      apply lookupAssoc_eq_none
      rw [← hk]
      exact h.1
    · rw [if_neg hk]
      unfold lookupAssoc
      rw [if_neg hk]
      exact ih h.2

/-- **C9**: the fallback bridge's response action on a pending id.  An
invalid raw value returns the rejection reason (with the guidance
text) and changes nothing — the entry stays pending and the waiter
stays unresolved, so the caller may retry.  A valid raw value resolves
the waiter with the transformed value, records it on that id's
conversation-history entry, and deletes the pending entry, after which
the id no longer resolves and the later timeout firing is a no-op —
each pending id is removed exactly once, by the response action or by
the timeout (which, while the id is still pending, deletes it and
rejects the waiter). -/
theorem C9_response_action (rt : String → String → Bool) (st : Workaround.BridgeState)
    (id : String) (response : JSVal) (pending : Workaround.PendingEntry)
    (hp : lookupAssoc st.pendingElicitations id = some pending)
    (hnodup : (st.pendingElicitations.map Prod.fst).Nodup) :
    ((Workaround.validateResponse rt response pending.elicitation).valid = false →
      Workaround.handleResponse rt st id response = .ok (st, .invalid
        ("Invalid response: " ++
          (Workaround.validateResponse rt response pending.elicitation).error.getD "undefined" ++
          "\n\n" ++ Workaround.getElicitationInstructions pending.elicitation))) ∧
    ((Workaround.validateResponse rt response pending.elicitation).valid = true →
      Workaround.handleResponse rt st id response = .ok
        ({ pendingElicitations := Workaround.eraseAssoc st.pendingElicitations id
           conversationHistory := Workaround.handleResponse.updateHistoryResponse
             st.conversationHistory id
             (Workaround.transformResponse response pending.elicitation)
           resolved := st.resolved ++
             [(id, Workaround.transformResponse response pending.elicitation)]
           rejected := st.rejected },
         .accepted ("Response accepted: " ++
           Workaround.jsonStringify (Workaround.transformResponse response pending.elicitation))) ∧
      lookupAssoc (Workaround.eraseAssoc st.pendingElicitations id) id = none) ∧
    Workaround.timeoutFire st id =
      { pendingElicitations := Workaround.eraseAssoc st.pendingElicitations id
        conversationHistory := st.conversationHistory
        resolved := st.resolved
        rejected := st.rejected ++ [(id, "Elicitation timeout")] } ∧
    ((Workaround.validateResponse rt response pending.elicitation).valid = true →
      ∀ (st2 : Workaround.BridgeState) (rep : Workaround.HandleReply),
        Workaround.handleResponse rt st id response = .ok (st2, rep) →
        Workaround.timeoutFire st2 id = st2) := by
  have hacc : (Workaround.validateResponse rt response pending.elicitation).valid = true →
      Workaround.handleResponse rt st id response = .ok
        ({ pendingElicitations := Workaround.eraseAssoc st.pendingElicitations id
           conversationHistory := Workaround.handleResponse.updateHistoryResponse
             st.conversationHistory id
             (Workaround.transformResponse response pending.elicitation)
           resolved := st.resolved ++
             [(id, Workaround.transformResponse response pending.elicitation)]
           rejected := st.rejected },
         .accepted ("Response accepted: " ++
           Workaround.jsonStringify (Workaround.transformResponse response pending.elicitation))) := by
    intro hv
    unfold Workaround.handleResponse
    rw [hp]
    try dsimp only
    simp only [hv, Bool.not_true, Bool.false_eq_true, if_false]
  refine ⟨?_, fun hv => ⟨hacc hv, lookupAssoc_eraseAssoc_self _ _ hnodup⟩, ?_, ?_⟩
  · intro hv
    unfold Workaround.handleResponse
    rw [hp]
    try dsimp only
    simp only [hv, Bool.not_false, if_true]
  · unfold Workaround.timeoutFire
    simp only [hp, Option.isSome_some, if_true]
  · intro hv st2 rep heq
    rw [hacc hv] at heq
    injection heq with heq
    injection heq with h1 h2
    subst h1
    unfold Workaround.timeoutFire
    simp [lookupAssoc_eraseAssoc_self st.pendingElicitations id hnodup]

/-- Witness for `C9_response_action` at the pending bounded-number
fixture: `"42"` is rejected with its reason, the state untouched;
`"5"` resolves the waiter with the number `5`, records it in the
history, and empties the pending table; and the timer firing while the
entry is pending deletes it and rejects the waiter. -/
theorem C9_response_action_witness :
    Workaround.handleResponse noRegex bridgeC9 "e1" (.str "42") = .ok (bridgeC9, .invalid
      ("Invalid response: Response must be <= 10\n\nPlease provide a number response.\nMinimum value: 1\nMaximum value: 10\nThis response is required.")) ∧
    Workaround.handleResponse noRegex bridgeC9 "e1" (.str "5") = .ok
      ({ pendingElicitations := []
         conversationHistory := [⟨"e1", .number, "Enter number",
           some (.num (jsToNumber (.str "5"))), 0⟩]
         resolved := [("e1", .num (jsToNumber (.str "5")))]
         rejected := [] },
       .accepted "Response accepted: 5") ∧
    Workaround.timeoutFire bridgeC9 "e1" =
      { pendingElicitations := []
        conversationHistory := bridgeC9.conversationHistory
        resolved := []
        rejected := [("e1", "Elicitation timeout")] } := by
  have h42 := C9_response_action noRegex bridgeC9 "e1" (.str "42")
    { elicitation := numSpec110 } rfl (by decide)
  have h5 := C9_response_action noRegex bridgeC9 "e1" (.str "5")
    { elicitation := numSpec110 } rfl (by decide)
  exact ⟨h42.1 rfl, (h5.2.1 rfl).1, h5.2.2.1⟩

/-- Witness for `C10_missing_spec_noop` at the elicitation-kind
fixture, with two different collaborator stacks. -/
theorem C10_missing_spec_noop_witness :
    ∃ r, executeState noRegex stubServices 1 wfC10 stC10e "a" [("k", .str "v")] = some r ∧
      r.result = .null ∧ r.vars = [("k", .str "v")] ∧
      executeState noRegex boolToolServices 1 wfC10 stC10e "a" [("k", .str "v")] = some r ∧
      ∃ ctx', step noRegex stubServices 1 wfC10
          ⟨"a", [("k", .str "v")], []⟩ = .ok ctx' ∧ ctx'.vars = [("k", .str "v")] ∧
        ctx'.history = ([] : List HistoryEntry) ++
          [{ state := "a", timestamp := 0, vars := [("k", JSVal.str "v")] }] :=
  C10_missing_spec_noop noRegex stubServices boolToolServices 0 wfC10
    ⟨"a", [("k", .str "v")], []⟩ stC10e rfl (.inl ⟨rfl, rfl⟩)

end ADF
